import Mathlib

/-!
Verification development for the `id3v2` tag library (`tag.go`).

The Go source is shallowly embedded: Go maps become association lists
(`List (String × α)`) with first-match lookup, bytes become `Nat`, a
fallible or panicking Go function becomes an `Option`-valued Lean
function, and `Save`'s filesystem effects become explicit state passing
over a path-indexed file store.
-/

set_option maxRecDepth 10000

namespace Id3v2

/-! ## Association-list model of Go maps -/

/-- Go map read with comma-ok semantics: first binding of the key, if any. -/
def mapGet {α : Type} : List (String × α) → String → Option α
  | [], _ => none
  | (k, v) :: rest, key => if k = key then some v else mapGet rest key

/-- Go map write: replace the first binding of the key, or append a new one. -/
def mapSet {α : Type} : List (String × α) → String → α → List (String × α)
  | [], key, v => [(key, v)]
  | (k, w) :: rest, key, v =>
      if k = key then (key, v) :: rest else (k, w) :: mapSet rest key v

/-- Go `delete`: remove every binding of the key. -/
def mapDel {α : Type} : List (String × α) → String → List (String × α)
  | [], _ => []
  | (k, v) :: rest, key => if k = key then mapDel rest key else (k, v) :: mapDel rest key

/-! ## Frames and sequences -/

/-- `TextFrame` (defined outside `tag.go`): an encoding byte plus text. -/
structure TextFrame where
  Encoding : Nat
  Text : String
deriving DecidableEq

/-- Modelled from the spec: the UTF-8 text-encoding constant used by the setters. -/
def ENUTF8 : Nat := 3

/-- Bytes of a Go string (identifier bytes written by `writeFrameHeader`). -/
def strBytes (s : String) : List Nat := s.data.map Char.toNat

/-- `Framer` is the frame capability: any value that can serialize its body.
A frame is either a concrete `TextFrame` or some other frame kind carrying
its already-serialized body (pictures, comments, ...). -/
inductive Framer where
  | text : TextFrame → Framer
  | generic : List Nat → Framer
deriving DecidableEq

/-- Modelled from the spec: a text frame's body serialization (done by the
collaborator, out of this core's scope) — encoding byte followed by the
text bytes. Claims never depend on the exact bytes, only on `Body` being
a function of the frame. -/
def textFrameBody (tf : TextFrame) : List Nat :=
  tf.Encoding :: strBytes tf.Text

/-- The frame capability `Body() []byte`. -/
def Framer.Body : Framer → List Nat
  | .text tf => textFrameBody tf
  | .generic b => b

/-- `sequencer` (implemented in `sequence.go`, outside `src/`).
Modelled from the spec: an ordered, growable collection of frames. -/
structure sequencer where
  frames : List Framer
deriving DecidableEq

/-- Modelled from the spec: `sequencer.AddFrame` appends, never replaces. -/
def sequencer.AddFrame (s : sequencer) (f : Framer) : sequencer :=
  ⟨s.frames ++ [f]⟩

/-- `sequencer.Frames` returns the ordered contents. -/
def sequencer.Frames (s : sequencer) : List Framer := s.frames

/-- Modelled from the spec: the three sequence constructors all start empty. -/
def newPictureSequence : sequencer := ⟨[]⟩

/-- Modelled from the spec (see `newPictureSequence`). -/
def newCommentSequence : sequencer := ⟨[]⟩

/-- Modelled from the spec (see `newPictureSequence`). -/
def newUSLFSequence : sequencer := ⟨[]⟩

/-- `frameCoordinates` (defined outside `tag.go`): the byte-range location
of one not-yet-parsed frame in the original file. -/
structure frameCoordinates where
  pos : Nat
  len : Nat
deriving DecidableEq

/-! ## The Tag aggregate -/

/-- The `Tag` struct. The open `*os.File` handle is modelled by the path of
the backing file (`filePath`); `parseCoord` stands for the external
coordinate parser collaborator that materializes a pending frame. -/
structure Tag where
  framesCoords : List (String × List frameCoordinates)
  frames : List (String × Framer)
  sequences : List (String × sequencer)
  ids : List (String × String)
  filePath : String
  originalSize : Nat
  parseCoord : frameCoordinates → Framer

/-- `t.ids[description]`: Go map read returning the zero value `""` on a miss. -/
def Tag.ID (t : Tag) (description : String) : String :=
  (mapGet t.ids description).getD ""

/-- `checkExistenceOfSequence`: create the sequence only when absent. -/
def Tag.checkExistenceOfSequence (t : Tag) (id : String) (newSequence : sequencer) : Tag :=
  if (mapGet t.sequences id).isNone then
    { t with sequences := mapSet t.sequences id newSequence }
  else t

/-- `addFrameToSequence`: append to the sequence stored under `id`. The
`none` branch corresponds to a nil-map-entry crash in Go and is unreachable
from `AddFrame`, which always creates the sequence first. -/
def Tag.addFrameToSequence (t : Tag) (id : String) (f : Framer) : Tag :=
  match mapGet t.sequences id with
  | some s => { t with sequences := mapSet t.sequences id (s.AddFrame f) }
  | none => t

/-- `addAttachedPicture`. -/
def Tag.addAttachedPicture (t : Tag) (f : Framer) : Tag :=
  let id := t.ID "Attached picture"
  (t.checkExistenceOfSequence id newPictureSequence).addFrameToSequence id f

/-- `addCommentFrame`. -/
def Tag.addCommentFrame (t : Tag) (f : Framer) : Tag :=
  let id := t.ID "Comments"
  (t.checkExistenceOfSequence id newCommentSequence).addFrameToSequence id f

/-- `addUnsynchronisedLyricsFrame`. -/
def Tag.addUnsynchronisedLyricsFrame (t : Tag) (f : Framer) : Tag :=
  let id := t.ID "Unsynchronised lyrics/text transcription"
  (t.checkExistenceOfSequence id newUSLFSequence).addFrameToSequence id f

/-- `findSpecificAddFunction`: the value-keyed switch routing the three
repeatable identifiers to their sequence-add functions. -/
def Tag.findSpecificAddFunction (t : Tag) (id : String) : Option (Tag → Framer → Tag) :=
  if id = t.ID "Attached picture" then some Tag.addAttachedPicture
  else if id = t.ID "Comments" then some Tag.addCommentFrame
  else if id = t.ID "Unsynchronised lyrics/text transcription" then
    some Tag.addUnsynchronisedLyricsFrame
  else none

/-- `AddFrame`: the single mutation entry point. -/
def Tag.AddFrame (t : Tag) (id : String) (f : Framer) : Tag :=
  match t.findSpecificAddFunction id with
  | some addFunc => addFunc t f
  | none => { t with frames := mapSet t.frames id f }

/-- Modelled from the spec: `parseFramesCoordsWithID` lives in the lazy
parser (outside `src/`); it materializes each pending coordinate of `id`
via the external parser, adds the resulting frames through the normal add
path, then clears that id's pending-coordinates entry. -/
def Tag.parseFramesCoordsWithID (t : Tag) (id : String) : Tag :=
  let coords := (mapGet t.framesCoords id).getD []
  let t1 := coords.foldl (fun acc c => acc.AddFrame id (acc.parseCoord c)) t
  { t1 with framesCoords := mapDel t1.framesCoords id }

/-- `GetFrames`: parse the id's pending coordinates if any, then return the
single flat frame as a one-element slice, else the sequence contents, else
nil. Returns the (possibly) updated tag alongside the slice. -/
def Tag.GetFrames (t : Tag) (id : String) : Tag × List Framer :=
  let t1 := if (mapGet t.framesCoords id).isSome then t.parseFramesCoordsWithID id else t
  match mapGet t1.frames id with
  | some f => (t1, [f])
  | none =>
    match mapGet t1.sequences id with
    | some s => (t1, s.Frames)
    | none => (t1, [])

/-- `GetLastFrame`: last element of `GetFrames`' slice, or nil when empty. -/
def Tag.GetLastFrame (t : Tag) (id : String) : Tag × Option Framer :=
  let r := t.GetFrames id
  let fs := r.2
  if fs.length = 0 then (r.1, none)
  else (r.1, fs.get? (fs.length - 1))

/-- `GetTextFrame`: zero `TextFrame` when no frame is stored; otherwise an
unchecked type assertion to `TextFrame` — `none` models the Go panic on a
non-textual frame. -/
def Tag.GetTextFrame (t : Tag) (id : String) : Option TextFrame :=
  match (t.GetLastFrame id).2 with
  | none => some { Encoding := 0, Text := "" }
  | some f =>
    match f with
    | .text tf => some tf
    | .generic _ => none

/-- `Title` (`none` models a panic propagated from `GetTextFrame`). -/
def Tag.Title (t : Tag) : Option String :=
  (t.GetTextFrame ((mapGet t.ids "Title/Songname/Content description").getD "")).map
    TextFrame.Text

/-- `SetTitle`. -/
def Tag.SetTitle (t : Tag) (title : String) : Tag :=
  t.AddFrame ((mapGet t.ids "Title/Songname/Content description").getD "")
    (.text { Encoding := ENUTF8, Text := title })

/-- `Artist`. -/
def Tag.Artist (t : Tag) : Option String :=
  (t.GetTextFrame
    ((mapGet t.ids "Lead artist/Lead performer/Soloist/Performing group").getD "")).map
    TextFrame.Text

/-- `SetArtist`. -/
def Tag.SetArtist (t : Tag) (artist : String) : Tag :=
  t.AddFrame ((mapGet t.ids "Lead artist/Lead performer/Soloist/Performing group").getD "")
    (.text { Encoding := ENUTF8, Text := artist })

/-- `Album`. -/
def Tag.Album (t : Tag) : Option String :=
  (t.GetTextFrame ((mapGet t.ids "Album/Movie/Show title").getD "")).map TextFrame.Text

/-- `SetAlbum`. -/
def Tag.SetAlbum (t : Tag) (album : String) : Tag :=
  t.AddFrame ((mapGet t.ids "Album/Movie/Show title").getD "")
    (.text { Encoding := ENUTF8, Text := album })

/-- `Year`. -/
def Tag.Year (t : Tag) : Option String :=
  (t.GetTextFrame ((mapGet t.ids "Recording time").getD "")).map TextFrame.Text

/-- `SetYear`. -/
def Tag.SetYear (t : Tag) (year : String) : Tag :=
  t.AddFrame ((mapGet t.ids "Recording time").getD "")
    (.text { Encoding := ENUTF8, Text := year })

/-- `Genre`. -/
def Tag.Genre (t : Tag) : Option String :=
  (t.GetTextFrame ((mapGet t.ids "Content type").getD "")).map TextFrame.Text

/-- `SetGenre`. -/
def Tag.SetGenre (t : Tag) (genre : String) : Tag :=
  t.AddFrame ((mapGet t.ids "Content type").getD "")
    (.text { Encoding := ENUTF8, Text := genre })

/-- Modelled from the spec: `parseAllFramesCoords` (outside `src/`) parses
the pending coordinates of every identifier. -/
def Tag.parseAllFramesCoords (t : Tag) : Tag :=
  t.framesCoords.foldl (fun acc p => acc.parseFramesCoordsWithID p.1) t

/-- `AllFrames`: materialize everything, then merge `frames` and
`sequences` into one identifier-keyed map of ordered frame lists. -/
def Tag.AllFrames (t : Tag) : Tag × List (String × List Framer) :=
  let t1 := t.parseAllFramesCoords
  let m1 := t1.frames.foldl
    (fun m p => mapSet m p.1 ((mapGet m p.1).getD [] ++ [p.2])) []
  let m2 := t1.sequences.foldl
    (fun m p => mapSet m p.1 ((mapGet m p.1).getD [] ++ p.2.Frames)) m1
  (t1, m2)

/-! ## Frame serialization -/

/-- Modelled from the spec: `util.FormSize` (outside `src/`), the size
codec producing the format's four-byte base-128 synchsafe representation
of a byte count. Claims use it only as a deterministic function. -/
def FormSize (n : Nat) : List Nat :=
  [n / 2 ^ 21 % 128, n / 2 ^ 14 % 128, n / 2 ^ 7 % 128, n % 128]

/-- Modelled from the spec: `formTagHeader` (outside `src/`) produces the
fixed-size tag header — magic and version bytes followed by the encoded
size of the frame buffer. -/
def formTagHeader (framesSize : List Nat) : List Nat :=
  [0x49, 0x44, 0x33, 3, 0, 0] ++ framesSize

/-- `writeFrameHeader`: identifier bytes, size-codec bytes, two zero flag
bytes (modelled as the emitted byte list). -/
def writeFrameHeader (id : String) (frameSize : Nat) : List Nat :=
  strBytes id ++ FormSize frameSize ++ [0, 0]

/-- `formFrame`: panics (`none`) on a blank identifier, otherwise emits the
frame header followed by the frame's serialized body. -/
def formFrame (id : String) (frame : Framer) : Option (List Nat) :=
  if id = "" then none
  else
    let frameBody := frame.Body
    some (writeFrameHeader id frameBody.length ++ frameBody)

/-- One identifier group of `writeFrames`: emit every frame of the group,
propagating the blank-identifier panic. -/
def formFramesGroup (id : String) : List Framer → Option (List Nat)
  | [] => some []
  | f :: rest => do
    let b ← formFrame id f
    let r ← formFramesGroup id rest
    pure (b ++ r)

/-- `writeFrames` over the `AllFrames` entries, as the emitted byte list. -/
def writeFramesBytes : List (String × List Framer) → Option (List Nat)
  | [] => some []
  | (id, fs) :: rest => do
    let b ← formFramesGroup id fs
    let r ← writeFramesBytes rest
    pure (b ++ r)

/-- `formAllFrames`: materialize all frames and concatenate their frame
blocks; `none` models the panic on a blank identifier. -/
def Tag.formAllFrames (t : Tag) : Option (Tag × List Nat) :=
  let r := t.AllFrames
  (writeFramesBytes r.2).map (fun b => (r.1, b))

/-! ## Filesystem model and Save -/

/-- One on-disk file: its byte content and its permission mode. -/
structure FileData where
  content : List Nat
  mode : Nat
deriving DecidableEq

/-- The filesystem: a path-indexed store of files. -/
def FS : Type := List (String × FileData)

/-- `ioutil.TempFile`: create an empty file with mode `0600`. -/
def fsCreate (fs : FS) (p : String) : FS :=
  mapSet fs p { content := [], mode := 0o600 }

/-- A `Write` on an open handle: append bytes at end of file (no-op on a
missing path, which the Save path never hits — the temp file is created
first). -/
def fsAppend (fs : FS) (p : String) (d : List Nat) : FS :=
  match mapGet fs p with
  | some fd => mapSet fs p { content := fd.content ++ d, mode := fd.mode }
  | none => fs

/-- `Chmod`. -/
def fsChmod (fs : FS) (p : String) (m : Nat) : FS :=
  match mapGet fs p with
  | some fd => mapSet fs p { content := fd.content, mode := m }
  | none => fs

/-- `os.Rename src dst`: atomically move the file, replacing `dst`. -/
def fsRename (fs : FS) (src dst : String) : FS :=
  match mapGet fs src with
  | some fd => mapSet (mapDel fs src) dst fd
  | none => fs

/-- The environment of one `Save` run: the fresh temp path the OS hands
out, and a fault injection flag for each fallible step. -/
structure SaveEnv where
  tempPath : String
  tempFail : Bool
  writeHeaderFail : Bool
  writeFramesFail : Bool
  seekFail : Bool
  copyFail : Bool
  statFail : Bool
  chmodFail : Bool
  renameFail : Bool

/-- Outcome of `Save`: a panic (blank identifier during serialization), a
reported error, or success — each carrying the filesystem it leaves
behind. -/
inductive SaveResult where
  | fatal : FS → SaveResult
  | err : String → FS → SaveResult
  | ok : Tag → FS → SaveResult

/-- `Save`: serialize all frames, write header and frames to a fresh temp
file, copy the audio payload (everything past `originalSize`) from the
original file, copy the mode, and atomically rename the temp file over the
original path. Reads through the open handle are modelled as reads of the
original path. -/
def Tag.Save (t : Tag) (fs : FS) (env : SaveEnv) : SaveResult :=
  match t.formAllFrames with
  | none => .fatal fs
  | some (t1, frames) =>
    let framesSize := FormSize frames.length
    if env.tempFail then .err "tempfile" fs else
    let fs1 := fsCreate fs env.tempPath
    if env.writeHeaderFail then .err "write header" fs1 else
    let fs2 := fsAppend fs1 env.tempPath (formTagHeader framesSize)
    if env.writeFramesFail then .err "write frames" fs2 else
    let fs3 := fsAppend fs2 env.tempPath frames
    if env.seekFail then .err "seek" fs3 else
    if env.copyFail then .err "copy" fs3 else
    let orig := (mapGet fs3 t.filePath).getD { content := [], mode := 0 }
    let fs4 := fsAppend fs3 env.tempPath (orig.content.drop t.originalSize)
    if env.statFail then .err "stat" fs4 else
    if env.chmodFail then .err "chmod" fs4 else
    let fs5 := fsChmod fs4 env.tempPath orig.mode
    if env.renameFail then .err "rename" fs5 else
    let fs6 := fsRename fs5 env.tempPath t.filePath
    .ok t1 fs6

/-- The serialized frame buffer a successful `Save` writes (the `some`
component of `formAllFrames`). -/
def savedFrames (t : Tag) : List Nat :=
  match t.formAllFrames with
  | some r => r.2
  | none => []

/-- Content of the file stored at a path. -/
def fsContent (fs : FS) (p : String) : Option (List Nat) :=
  (mapGet fs p).map FileData.content

/-- The audio payload `Save` copies: the original file's bytes past the
old tag region. -/
def origPayload (fs : FS) (t : Tag) : List Nat :=
  ((mapGet fs t.filePath).getD { content := [], mode := 0 }).content.drop t.originalSize

/-- The original file's permission mode. -/
def origMode (fs : FS) (t : Tag) : Nat :=
  ((mapGet fs t.filePath).getD { content := [], mode := 0 }).mode

/-! ## Derived notions used by the statements -/

/-- The frames currently stored in `id`'s sequence (empty if absent). -/
def seqFramesAt (t : Tag) (id : String) : List Framer :=
  ((mapGet t.sequences id).map sequencer.frames).getD []

/-- Repeated `AddFrame` calls with one identifier. -/
def addAll (t : Tag) (id : String) (fs : List Framer) : Tag :=
  fs.foldl (fun a f => a.AddFrame id f) t

/-- The non-emptiness invariant of the `sequences` map: every stored
sequence holds at least one frame. -/
def SeqInv (t : Tag) : Prop :=
  ∀ id s, mapGet t.sequences id = some s → s.frames ≠ []

/-! ## Concrete sample values (used to evaluate the theorems) -/

/-- A description-to-identifier table with the usual ID3v2.3 codes. -/
def sampleIds : List (String × String) :=
  [("Attached picture", "APIC"), ("Comments", "COMM"),
   ("Unsynchronised lyrics/text transcription", "USLT"),
   ("Title/Songname/Content description", "TIT2"),
   ("Lead artist/Lead performer/Soloist/Performing group", "TPE1"),
   ("Album/Movie/Show title", "TALB"),
   ("Recording time", "TDRC"), ("Content type", "TCON")]

/-- A freshly opened tag with no frames and a 4-byte original tag region. -/
def emptyTag : Tag :=
  { framesCoords := [], frames := [], sequences := [], ids := sampleIds,
    filePath := "song.mp3", originalSize := 4,
    parseCoord := fun _ => .generic [] }

/-- A filesystem holding the original file: 4 tag bytes then 3 audio bytes. -/
def sampleFS : FS :=
  [("song.mp3", { content := [1, 2, 3, 4, 10, 11, 12], mode := 0o644 })]

/-- A fault-free run of `Save` with a fresh temp path. -/
def allOkEnv : SaveEnv :=
  { tempPath := "tmpA", tempFail := false, writeHeaderFail := false,
    writeFramesFail := false, seekFail := false, copyFail := false,
    statFail := false, chmodFail := false, renameFail := false }

/-- `emptyTag` with a flat frame already stored under the picture
identifier (a state the claims must survive, or not). -/
def flatPictureTag : Tag :=
  { emptyTag with frames := [("APIC", .generic [0])] }

/-! ## Map lemmas -/

theorem mapGet_mapSet_self {α : Type} (m : List (String × α)) (k : String) (v : α) :
    mapGet (mapSet m k v) k = some v := by
  induction m with
  | nil => simp [mapGet, mapSet]
  | cons p rest ih =>
    obtain ⟨k', v'⟩ := p
    by_cases h : k' = k <;> simp [mapGet, mapSet, h, ih]

theorem mapGet_mapSet_ne {α : Type} {m : List (String × α)} {k j : String} {v : α}
    (h : j ≠ k) : mapGet (mapSet m k v) j = mapGet m j := by
  induction m with
  | nil => simp [mapGet, mapSet, Ne.symm h]
  | cons p rest ih =>
    obtain ⟨k', v'⟩ := p
    by_cases hk : k' = k
    · subst hk
      simp [mapGet, mapSet, Ne.symm h]
    · simp only [mapSet, if_neg hk]
      by_cases hj : k' = j
      · simp [mapGet, hj]
      · simp [mapGet, hj, ih]

theorem mapGet_mapDel_self {α : Type} (m : List (String × α)) (k : String) :
    mapGet (mapDel m k) k = none := by
  induction m with
  | nil => simp [mapGet, mapDel]
  | cons p rest ih =>
    obtain ⟨k', v'⟩ := p
    by_cases h : k' = k <;> simp [mapGet, mapDel, h, ih]

theorem mapGet_mapDel_ne {α : Type} {m : List (String × α)} {k j : String}
    (h : j ≠ k) : mapGet (mapDel m k) j = mapGet m j := by
  induction m with
  | nil => simp [mapDel]
  | cons p rest ih =>
    obtain ⟨k', v'⟩ := p
    by_cases hk : k' = k
    · subst hk
      simp [mapGet, mapDel, Ne.symm h, ih]
    · simp only [mapDel, if_neg hk]
      by_cases hj : k' = j
      · simp [mapGet, hj]
      · simp [mapGet, hj, ih]

theorem mapSet_mapSet {α : Type} (m : List (String × α)) (k : String) (v w : α) :
    mapSet (mapSet m k v) k w = mapSet m k w := by
  induction m with
  | nil => simp [mapSet]
  | cons p rest ih =>
    obtain ⟨k', v'⟩ := p
    by_cases h : k' = k <;> simp [mapSet, h, ih]

/-! ## Filesystem lemmas -/

theorem mapGet_fsCreate_ne {fs : FS} {p q : String} (h : q ≠ p) :
    mapGet (fsCreate fs p) q = mapGet fs q :=
  mapGet_mapSet_ne h

theorem mapGet_fsAppend_ne {fs : FS} {p q : String} {d : List Nat} (h : q ≠ p) :
    mapGet (fsAppend fs p d) q = mapGet fs q := by
  unfold fsAppend
  cases mapGet fs p with
  | none => rfl
  | some fd => exact mapGet_mapSet_ne h

theorem mapGet_fsChmod_ne {fs : FS} {p q : String} {m : Nat} (h : q ≠ p) :
    mapGet (fsChmod fs p m) q = mapGet fs q := by
  unfold fsChmod
  cases mapGet fs p with
  | none => rfl
  | some fd => exact mapGet_mapSet_ne h

theorem mapGet_fsCreate_self (fs : FS) (p : String) :
    mapGet (fsCreate fs p) p = some { content := [], mode := 0o600 } :=
  mapGet_mapSet_self fs p _

theorem mapGet_fsAppend_self {fs : FS} {p : String} {fd : FileData} (d : List Nat)
    (h : mapGet fs p = some fd) :
    mapGet (fsAppend fs p d) p = some { content := fd.content ++ d, mode := fd.mode } := by
  unfold fsAppend
  rw [h]
  exact mapGet_mapSet_self fs p _

theorem mapGet_fsChmod_self {fs : FS} {p : String} {fd : FileData} (m : Nat)
    (h : mapGet fs p = some fd) :
    mapGet (fsChmod fs p m) p = some { content := fd.content, mode := m } := by
  unfold fsChmod
  rw [h]
  exact mapGet_mapSet_self fs p _

theorem mapGet_fsRename_dst {fs : FS} {src dst : String} {fd : FileData}
    (h : mapGet fs src = some fd) :
    mapGet (fsRename fs src dst) dst = some fd := by
  unfold fsRename
  rw [h]
  exact mapGet_mapSet_self _ dst _

theorem mapGet_fsRename_other {fs : FS} {src dst p : String}
    (hs : p ≠ src) (hd : p ≠ dst) :
    mapGet (fsRename fs src dst) p = mapGet fs p := by
  unfold fsRename
  cases mapGet fs src with
  | none => rfl
  | some fd => rw [mapGet_mapSet_ne hd, mapGet_mapDel_ne hs]

/-! ## Save lemmas -/

theorem Save_fatal_eq {t : Tag} {fs : FS} {env : SaveEnv} {fs' : FS}
    (h : t.Save fs env = .fatal fs') : fs' = fs := by
  simp only [Tag.Save] at h
  split at h
  · injection h with h1
    exact h1.symm
  · repeat' split at h
    all_goals cases h

theorem Save_err_preserves {t : Tag} {fs : FS} {env : SaveEnv} {e : String} {fs' : FS}
    (h : t.Save fs env = .err e fs') :
    ∀ p, p ≠ env.tempPath → mapGet fs' p = mapGet fs p := by
  intro p hp
  simp only [Tag.Save] at h
  split at h
  · cases h
  · repeat' split at h
    all_goals cases h
    all_goals simp [mapGet_fsCreate_ne hp, mapGet_fsAppend_ne hp, mapGet_fsChmod_ne hp]

theorem Save_ok_content {t : Tag} {fs : FS} {env : SaveEnv} {t' : Tag} {fs' : FS}
    (hT : env.tempPath ≠ t.filePath)
    (h : t.Save fs env = .ok t' fs') :
    mapGet fs' t.filePath =
      some { content := formTagHeader (FormSize (savedFrames t).length) ++
               savedFrames t ++ origPayload fs t,
             mode := origMode fs t } := by
  simp only [Tag.Save] at h
  split at h
  · cases h
  · rename_i t1 framesB heq
    repeat' split at h
    all_goals cases h
    have h2 : mapGet
        (fsAppend (fsAppend (fsCreate fs env.tempPath) env.tempPath
          (formTagHeader (FormSize framesB.length))) env.tempPath framesB)
        env.tempPath =
        some { content := ([] ++ formTagHeader (FormSize framesB.length)) ++ framesB,
               mode := 0o600 } :=
      mapGet_fsAppend_self framesB
        (mapGet_fsAppend_self (formTagHeader (FormSize framesB.length))
          (mapGet_fsCreate_self fs env.tempPath))
    have horig : mapGet
        (fsAppend (fsAppend (fsCreate fs env.tempPath) env.tempPath
          (formTagHeader (FormSize framesB.length))) env.tempPath framesB)
        t.filePath = mapGet fs t.filePath := by
      rw [mapGet_fsAppend_ne (Ne.symm hT), mapGet_fsAppend_ne (Ne.symm hT),
        mapGet_fsCreate_ne (Ne.symm hT)]
    rw [horig]
    rw [mapGet_fsRename_dst (mapGet_fsChmod_self _ (mapGet_fsAppend_self _ h2))]
    simp [savedFrames, heq, origPayload, origMode, List.append_assoc]

theorem Save_ok_preserves_other {t : Tag} {fs : FS} {env : SaveEnv} {t' : Tag} {fs' : FS}
    (h : t.Save fs env = .ok t' fs') :
    ∀ p, p ≠ env.tempPath → p ≠ t.filePath → mapGet fs' p = mapGet fs p := by
  intro p hp hq
  simp only [Tag.Save] at h
  split at h
  · cases h
  · repeat' split at h
    all_goals cases h
    rw [mapGet_fsRename_other hp hq, mapGet_fsChmod_ne hp, mapGet_fsAppend_ne hp,
      mapGet_fsAppend_ne hp, mapGet_fsAppend_ne hp, mapGet_fsCreate_ne hp]

/-! ## List helpers -/

theorem drop_length_append {α : Type} (l₁ l₂ : List α) :
    (l₁ ++ l₂).drop l₁.length = l₂ := by
  induction l₁ with
  | nil => rfl
  | cons a l ih => simp [ih]

theorem drop_sub_length_append {α : Type} (l₁ l₂ : List α) :
    (l₁ ++ l₂).drop ((l₁ ++ l₂).length - l₂.length) = l₂ := by
  rw [List.length_append, Nat.add_sub_cancel, drop_length_append]

/-! ## Claim C1 -/

/-- Claim C1: `Save` is all-or-nothing. On a panic or a reported error from
any step, the original path's file is exactly what it was before the call
(indeed, nothing but the temp path is ever written); on success, the
original path holds the new header, the serialized in-memory frames, and
the preserved audio payload. Only the final rename mutates the original
path. -/
theorem save_all_or_nothing (t : Tag) (fs : FS) (env : SaveEnv)
    (hT : env.tempPath ≠ t.filePath) :
    (∀ fs', t.Save fs env = .fatal fs' →
      mapGet fs' t.filePath = mapGet fs t.filePath) ∧
    (∀ e fs', t.Save fs env = .err e fs' →
      ∀ p, p ≠ env.tempPath → mapGet fs' p = mapGet fs p) ∧
    (∀ e fs', t.Save fs env = .err e fs' →
      mapGet fs' t.filePath = mapGet fs t.filePath) ∧
    (∀ t' fs', t.Save fs env = .ok t' fs' →
      mapGet fs' t.filePath =
        some { content := formTagHeader (FormSize (savedFrames t).length) ++
                 savedFrames t ++ origPayload fs t,
               mode := origMode fs t }) ∧
    (∀ t' fs', t.Save fs env = .ok t' fs' →
      ∀ p, p ≠ env.tempPath → p ≠ t.filePath → mapGet fs' p = mapGet fs p) := by
  refine ⟨?_, ?_, ?_, ?_, ?_⟩
  · intro fs' h
    rw [Save_fatal_eq h]
  · intro e fs' h
    exact Save_err_preserves h
  · intro e fs' h
    exact Save_err_preserves h t.filePath (Ne.symm hT)
  · intro t' fs' h
    exact Save_ok_content hT h
  · intro t' fs' h
    exact Save_ok_preserves_other h

/-- Witness for C1: a concrete fault-free run on a concrete file. -/
theorem save_all_or_nothing_witness :
    allOkEnv.tempPath ≠ emptyTag.filePath ∧
    (∀ t' fs', emptyTag.Save sampleFS allOkEnv = .ok t' fs' →
      mapGet fs' emptyTag.filePath =
        some { content := formTagHeader (FormSize (savedFrames emptyTag).length) ++
                 savedFrames emptyTag ++ origPayload sampleFS emptyTag,
               mode := origMode sampleFS emptyTag }) :=
  ⟨by decide, (save_all_or_nothing emptyTag sampleFS allOkEnv (by decide)).2.2.2.1⟩

/-! ## Claim C2 -/

/-- Claim C2: a successful `Save` preserves the audio payload verbatim. If
the original file is `tagRegion ++ payload` with `tagRegion` of length
`originalSize`, the new file is the new header and frame buffer followed
by exactly `payload`, so its last `payload.length` bytes equal `payload`. -/
theorem save_preserves_audio_payload (t : Tag) (fs : FS) (env : SaveEnv)
    (tagRegion payload : List Nat) (m : Nat)
    (h1 : mapGet fs t.filePath = some { content := tagRegion ++ payload, mode := m })
    (h2 : tagRegion.length = t.originalSize)
    (hT : env.tempPath ≠ t.filePath) :
    ∀ t' fs', t.Save fs env = .ok t' fs' →
      fsContent fs' t.filePath =
        some (formTagHeader (FormSize (savedFrames t).length) ++
          savedFrames t ++ payload) ∧
      ∀ c, fsContent fs' t.filePath = some c →
        c.drop (c.length - payload.length) = payload := by
  intro t' fs' h
  have hc := Save_ok_content hT h
  have hpay : origPayload fs t = payload := by
    rw [origPayload, h1]
    show (tagRegion ++ payload).drop t.originalSize = payload
    rw [← h2, drop_length_append]
  have hcontent : fsContent fs' t.filePath =
      some (formTagHeader (FormSize (savedFrames t).length) ++ savedFrames t ++ payload) := by
    rw [fsContent, hc, hpay]
    rfl
  refine ⟨hcontent, ?_⟩
  intro c hcc
  rw [hcontent] at hcc
  injection hcc with hcc
  subst hcc
  exact drop_sub_length_append _ _

/-- Witness for C2: the concrete file `[1,2,3,4] ++ [10,11,12]`. -/
theorem save_preserves_audio_payload_witness :
    mapGet sampleFS emptyTag.filePath =
      some { content := [1, 2, 3, 4] ++ [10, 11, 12], mode := 0o644 } ∧
    ([1, 2, 3, 4] : List Nat).length = emptyTag.originalSize ∧
    allOkEnv.tempPath ≠ emptyTag.filePath ∧
    (∀ t' fs', emptyTag.Save sampleFS allOkEnv = .ok t' fs' →
      fsContent fs' emptyTag.filePath =
        some (formTagHeader (FormSize (savedFrames emptyTag).length) ++
          savedFrames emptyTag ++ [10, 11, 12]) ∧
      ∀ c, fsContent fs' emptyTag.filePath = some c →
        c.drop (c.length - ([10, 11, 12] : List Nat).length) = [10, 11, 12]) :=
  ⟨by decide, by decide, by decide,
    save_preserves_audio_payload emptyTag sampleFS allOkEnv [1, 2, 3, 4] [10, 11, 12]
      0o644 (by decide) (by decide) (by decide)⟩

/-! ## AddFrame characterization -/

theorem isSome_false_eq_none {α : Type} {o : Option α} (h : o.isSome = false) :
    o = none := by
  cases o with
  | none => rfl
  | some a => simp at h

/-- Effect of the create-then-append pair used by all three routed adds. -/
theorem checkAdd_spec (t : Tag) (id : String) (ns : sequencer) (f : Framer) :
    ((t.checkExistenceOfSequence id ns).addFrameToSequence id f).framesCoords =
      t.framesCoords ∧
    ((t.checkExistenceOfSequence id ns).addFrameToSequence id f).frames = t.frames ∧
    ((t.checkExistenceOfSequence id ns).addFrameToSequence id f).ids = t.ids ∧
    ((t.checkExistenceOfSequence id ns).addFrameToSequence id f).sequences =
      mapSet t.sequences id ⟨((mapGet t.sequences id).getD ns).frames ++ [f]⟩ := by
  unfold Tag.checkExistenceOfSequence Tag.addFrameToSequence
  cases hs : mapGet t.sequences id with
  | none => simp [hs, mapGet_mapSet_self, mapSet_mapSet, sequencer.AddFrame]
  | some s => simp [hs, sequencer.AddFrame]

/-- Routing only reads the `ids` table. -/
theorem findSpec_congr {t' t : Tag} (h : t'.ids = t.ids) (id : String) :
    t'.findSpecificAddFunction id = t.findSpecificAddFunction id := by
  unfold Tag.findSpecificAddFunction Tag.ID
  rw [h]

/-- A routed `AddFrame` touches only `sequences[id]`, appending there. -/
theorem AddFrame_routed (t : Tag) (id : String) (f : Framer)
    (hr : (t.findSpecificAddFunction id).isSome = true) :
    (t.AddFrame id f).framesCoords = t.framesCoords ∧
    (t.AddFrame id f).frames = t.frames ∧
    (t.AddFrame id f).ids = t.ids ∧
    (t.AddFrame id f).sequences = mapSet t.sequences id ⟨seqFramesAt t id ++ [f]⟩ := by
  have key : ∀ ns : sequencer, ns.frames = [] →
      ((t.checkExistenceOfSequence id ns).addFrameToSequence id f).framesCoords =
        t.framesCoords ∧
      ((t.checkExistenceOfSequence id ns).addFrameToSequence id f).frames = t.frames ∧
      ((t.checkExistenceOfSequence id ns).addFrameToSequence id f).ids = t.ids ∧
      ((t.checkExistenceOfSequence id ns).addFrameToSequence id f).sequences =
        mapSet t.sequences id ⟨seqFramesAt t id ++ [f]⟩ := by
    intro ns hns
    obtain ⟨a, b, c, d⟩ := checkAdd_spec t id ns f
    refine ⟨a, b, c, ?_⟩
    rw [d]
    cases hs : mapGet t.sequences id with
    | none => simp [seqFramesAt, hs, hns]
    | some s => simp [seqFramesAt, hs]
  unfold Tag.findSpecificAddFunction at hr
  unfold Tag.AddFrame Tag.findSpecificAddFunction
  by_cases h1 : id = t.ID "Attached picture"
  · simp only [if_pos h1]
    show ((Tag.addAttachedPicture t f).framesCoords = _) ∧ _
    unfold Tag.addAttachedPicture
    rw [← h1]
    exact key newPictureSequence rfl
  · simp only [if_neg h1]
    by_cases h2 : id = t.ID "Comments"
    · simp only [if_pos h2]
      show ((Tag.addCommentFrame t f).framesCoords = _) ∧ _
      unfold Tag.addCommentFrame
      rw [← h2]
      exact key newCommentSequence rfl
    · simp only [if_neg h2]
      by_cases h3 : id = t.ID "Unsynchronised lyrics/text transcription"
      · simp only [if_pos h3]
        show ((Tag.addUnsynchronisedLyricsFrame t f).framesCoords = _) ∧ _
        unfold Tag.addUnsynchronisedLyricsFrame
        rw [← h3]
        exact key newUSLFSequence rfl
      · simp [h1, h2, h3] at hr

/-- A non-routed `AddFrame` just stores into the flat `frames` map. -/
theorem AddFrame_flat (t : Tag) (id : String) (f : Framer)
    (hr : t.findSpecificAddFunction id = none) :
    t.AddFrame id f = { t with frames := mapSet t.frames id f } := by
  unfold Tag.AddFrame
  rw [hr]

/-- `(t.GetFrames id).1` is `t`, updated only by coordinate parsing. -/
theorem GetFrames_fst (t : Tag) (id : String) :
    (t.GetFrames id).1 =
      if (mapGet t.framesCoords id).isSome then t.parseFramesCoordsWithID id else t := by
  simp only [Tag.GetFrames]
  repeat' split
  all_goals rfl

/-! ## Claim C3 -/

/-- Along repeated routed adds, `GetFrames` accumulates onto whatever the
sequence already held. -/
theorem addAll_routed (id : String) : ∀ (fs : List Framer) (t : Tag),
    (t.findSpecificAddFunction id).isSome = true →
    mapGet t.framesCoords id = none →
    mapGet t.frames id = none →
    ((addAll t id fs).GetFrames id).2 = seqFramesAt t id ++ fs := by
  intro fs
  induction fs with
  | nil =>
    intro t hr hc hf
    unfold addAll
    simp only [List.foldl_nil]
    unfold Tag.GetFrames
    simp only [hc, Option.isSome_none, Bool.false_eq_true, if_false, hf]
    cases hs : mapGet t.sequences id with
    | none => simp [seqFramesAt, hs]
    | some s => simp [seqFramesAt, sequencer.Frames, hs]
  | cons f fs ih =>
    intro t hr hc hf
    obtain ⟨hc', hf', hi', hs'⟩ := AddFrame_routed t id f hr
    have hr2 : ((t.AddFrame id f).findSpecificAddFunction id).isSome = true := by
      rw [findSpec_congr hi']
      exact hr
    have hc2 : mapGet (t.AddFrame id f).framesCoords id = none := by
      rw [hc']
      exact hc
    have hf2 : mapGet (t.AddFrame id f).frames id = none := by
      rw [hf']
      exact hf
    have hstep := ih (t.AddFrame id f) hr2 hc2 hf2
    have hseq : seqFramesAt (t.AddFrame id f) id = seqFramesAt t id ++ [f] := by
      rw [seqFramesAt, hs', mapGet_mapSet_self]
      rfl
    unfold addAll at hstep ⊢
    simp only [List.foldl_cons]
    rw [hstep, hseq]
    simp

/-- Counterexample to claim C3 as stated: the tag `flatPictureTag` has no
pending coordinates for the routed picture identifier, yet after
`AddFrame("APIC", f1)` the call `GetFrames("APIC")` returns the
pre-existing flat frame, not `[f1]` — the pending-coordinates condition
alone is not enough. -/
theorem routed_append_counterexample :
    ((flatPictureTag.AddFrame "APIC" (Framer.generic [1])).GetFrames "APIC").2 ≠
      [Framer.generic [1]] := by
  decide

/-- Claim C3 (amended): on a tag with no pending coordinates, no flat
frame and no stored sequence for a routed identifier, consecutive
`AddFrame` calls accumulate in insertion order and `GetFrames` returns
exactly the added frames. -/
theorem routed_append_order (t : Tag) (id : String) (fs : List Framer)
    (hr : (t.findSpecificAddFunction id).isSome = true)
    (hc : mapGet t.framesCoords id = none)
    (hf : mapGet t.frames id = none)
    (hs : mapGet t.sequences id = none) :
    ((addAll t id fs).GetFrames id).2 = fs := by
  rw [addAll_routed id fs t hr hc hf]
  simp [seqFramesAt, hs]

/-- Witness for C3 (amended): three picture frames on a fresh tag. -/
theorem routed_append_order_witness :
    (emptyTag.findSpecificAddFunction "APIC").isSome = true ∧
    mapGet emptyTag.framesCoords "APIC" = none ∧
    mapGet emptyTag.frames "APIC" = none ∧
    mapGet emptyTag.sequences "APIC" = none ∧
    ((addAll emptyTag "APIC"
        [Framer.generic [65], Framer.generic [66], Framer.generic [67]]).GetFrames
        "APIC").2 =
      [Framer.generic [65], Framer.generic [66], Framer.generic [67]] :=
  ⟨by decide, by decide, by decide, by decide,
    routed_append_order emptyTag "APIC" _ (by decide) (by decide) (by decide) (by decide)⟩

/-! ## Claim C4 -/

/-- Claim C4: for a non-routed identifier, a second `AddFrame` silently
overwrites the first and `GetFrames` returns only the second frame. -/
theorem flat_overwrite (t : Tag) (id : String) (f1 f2 : Framer)
    (hr : (t.findSpecificAddFunction id).isSome = false)
    (hc : mapGet t.framesCoords id = none) :
    (((t.AddFrame id f1).AddFrame id f2).GetFrames id).2 = [f2] := by
  have hn := isSome_false_eq_none hr
  rw [AddFrame_flat t id f1 hn]
  rw [AddFrame_flat { t with frames := mapSet t.frames id f1 } id f2
    ((findSpec_congr rfl id).trans hn)]
  unfold Tag.GetFrames
  simp [hc, mapSet_mapSet, mapGet_mapSet_self]

/-- Witness for C4: two title frames on a fresh tag. -/
theorem flat_overwrite_witness :
    (emptyTag.findSpecificAddFunction "TIT2").isSome = false ∧
    mapGet emptyTag.framesCoords "TIT2" = none ∧
    (((emptyTag.AddFrame "TIT2" (Framer.generic [1])).AddFrame "TIT2"
        (Framer.generic [2])).GetFrames "TIT2").2 = [Framer.generic [2]] :=
  ⟨by decide, by decide,
    flat_overwrite emptyTag "TIT2" (Framer.generic [1]) (Framer.generic [2])
      (by decide) (by decide)⟩

/-! ## Claim C10 -/

/-- Claim C10: `AddFrame`'s effect is confined to one map entry — the
routed path modifies only `sequences[id]` (appending), the flat path
modifies only `frames[id]` (setting), and `framesCoords` and all other
entries are untouched. -/
theorem addframe_effect_confined (t : Tag) (id : String) (f : Framer) :
    ((t.findSpecificAddFunction id).isSome = true →
      (t.AddFrame id f).frames = t.frames ∧
      (t.AddFrame id f).framesCoords = t.framesCoords ∧
      (∀ j, j ≠ id → mapGet (t.AddFrame id f).sequences j = mapGet t.sequences j) ∧
      mapGet (t.AddFrame id f).sequences id = some ⟨seqFramesAt t id ++ [f]⟩) ∧
    ((t.findSpecificAddFunction id).isSome = false →
      (t.AddFrame id f).sequences = t.sequences ∧
      (t.AddFrame id f).framesCoords = t.framesCoords ∧
      (∀ j, j ≠ id → mapGet (t.AddFrame id f).frames j = mapGet t.frames j) ∧
      mapGet (t.AddFrame id f).frames id = some f) := by
  constructor
  · intro hr
    obtain ⟨hc, hf, hi, hs⟩ := AddFrame_routed t id f hr
    refine ⟨hf, hc, ?_, ?_⟩
    · intro j hj
      rw [hs, mapGet_mapSet_ne hj]
    · rw [hs, mapGet_mapSet_self]
  · intro hr
    rw [AddFrame_flat t id f (isSome_false_eq_none hr)]
    exact ⟨rfl, rfl, fun j hj => mapGet_mapSet_ne hj, mapGet_mapSet_self _ _ _⟩

/-- Witness for C10: the routed case at the picture identifier. -/
theorem addframe_effect_confined_witness :
    (emptyTag.findSpecificAddFunction "APIC").isSome = true ∧
    ((emptyTag.AddFrame "APIC" (Framer.generic [7])).frames = emptyTag.frames ∧
     (emptyTag.AddFrame "APIC" (Framer.generic [7])).framesCoords =
       emptyTag.framesCoords ∧
     (∀ j, j ≠ "APIC" →
       mapGet (emptyTag.AddFrame "APIC" (Framer.generic [7])).sequences j =
         mapGet emptyTag.sequences j) ∧
     mapGet (emptyTag.AddFrame "APIC" (Framer.generic [7])).sequences "APIC" =
       some ⟨seqFramesAt emptyTag "APIC" ++ [Framer.generic [7]]⟩) :=
  ⟨by decide,
    (addframe_effect_confined emptyTag "APIC" (Framer.generic [7])).1 (by decide)⟩

/-! ## Claim C7 -/

/-- Claim C7: `GetLastFrame` is the last element of `GetFrames`' result
(`none` when that is empty); in particular, after adding picture frames
A, B, C to a fresh tag it yields C. -/
theorem getlastframe_is_last (t : Tag) (id : String) :
    (t.GetLastFrame id).2 = ((t.GetFrames id).2).getLast? ∧
    ((((emptyTag.AddFrame "APIC" (Framer.generic [65])).AddFrame "APIC"
        (Framer.generic [66])).AddFrame "APIC" (Framer.generic [67])).GetLastFrame
        "APIC").2 = some (Framer.generic [67]) := by
  constructor
  · simp only [Tag.GetLastFrame]
    cases hl : (t.GetFrames id).2 with
    | nil => simp [hl]
    | cons a l =>
      simp [List.get?_eq_getElem?, List.getLast?_eq_getElem?]
  · decide

/-! ## Claim C8 -/

theorem SeqInv_AddFrame {t : Tag} (h : SeqInv t) (id : String) (f : Framer) :
    SeqInv (t.AddFrame id f) := by
  cases hfs : (t.findSpecificAddFunction id).isSome with
  | false =>
    rw [AddFrame_flat t id f (isSome_false_eq_none hfs)]
    intro j s hj
    exact h j s hj
  | true =>
    obtain ⟨hc, hf, hi, hs⟩ := AddFrame_routed t id f hfs
    intro j s hj
    rw [hs] at hj
    by_cases hji : j = id
    · subst hji
      rw [mapGet_mapSet_self] at hj
      injection hj with hj
      rw [← hj]
      simp
    · rw [mapGet_mapSet_ne hji] at hj
      exact h j s hj

theorem SeqInv_parse_foldl (id : String) : ∀ (coords : List frameCoordinates) (t : Tag),
    SeqInv t →
    SeqInv (coords.foldl (fun acc c => acc.AddFrame id (acc.parseCoord c)) t) := by
  intro coords
  induction coords with
  | nil => intro t h; exact h
  | cons c cs ih =>
    intro t h
    exact ih _ (SeqInv_AddFrame h id _)

theorem SeqInv_parseID {t : Tag} (h : SeqInv t) (id : String) :
    SeqInv (t.parseFramesCoordsWithID id) := by
  unfold Tag.parseFramesCoordsWithID
  intro j s hj
  exact SeqInv_parse_foldl id _ t h j s hj

theorem SeqInv_parseAll {t : Tag} (h : SeqInv t) : SeqInv t.parseAllFramesCoords := by
  unfold Tag.parseAllFramesCoords
  have main : ∀ (l : List (String × List frameCoordinates)) (t0 : Tag), SeqInv t0 →
      SeqInv (l.foldl (fun acc p => acc.parseFramesCoordsWithID p.1) t0) := by
    intro l
    induction l with
    | nil => intro t0 h0; exact h0
    | cons p ps ih => intro t0 h0; exact ih _ (SeqInv_parseID h0 p.1)
  exact main t.framesCoords t h

theorem checkExistence_noop {t : Tag} {id : String} (ns : sequencer)
    (h : (mapGet t.sequences id).isSome = true) :
    t.checkExistenceOfSequence id ns = t := by
  obtain ⟨s, hs⟩ := Option.isSome_iff_exists.mp h
  simp [Tag.checkExistenceOfSequence, hs]

/-- Claim C8: every sequence stored in `sequences` is non-empty, the
public operations preserve this, `checkExistenceOfSequence` is a no-op
when the sequence exists, and sequence insertion preserves order by
appending. -/
theorem sequences_nonempty_invariant (t : Tag) (h : SeqInv t) :
    (∀ id f, SeqInv (t.AddFrame id f)) ∧
    (∀ s, SeqInv (t.SetTitle s)) ∧
    (∀ s, SeqInv (t.SetArtist s)) ∧
    (∀ s, SeqInv (t.SetAlbum s)) ∧
    (∀ s, SeqInv (t.SetYear s)) ∧
    (∀ s, SeqInv (t.SetGenre s)) ∧
    (∀ id, SeqInv (t.GetFrames id).1) ∧
    SeqInv t.AllFrames.1 ∧
    (∀ id ns, (mapGet t.sequences id).isSome = true →
      t.checkExistenceOfSequence id ns = t) ∧
    (∀ (s : sequencer) (f : Framer), (s.AddFrame f).Frames = s.Frames ++ [f]) := by
  refine ⟨fun id f => SeqInv_AddFrame h id f,
    fun s => SeqInv_AddFrame h _ _, fun s => SeqInv_AddFrame h _ _,
    fun s => SeqInv_AddFrame h _ _, fun s => SeqInv_AddFrame h _ _,
    fun s => SeqInv_AddFrame h _ _, ?_, ?_, fun id ns hx => checkExistence_noop ns hx,
    fun s f => rfl⟩
  · intro id
    rw [GetFrames_fst]
    split
    · exact SeqInv_parseID h id
    · exact h
  · exact SeqInv_parseAll h

/-- Witness for C8: the invariant holds for the fresh tag and is kept. -/
theorem sequences_nonempty_invariant_witness :
    SeqInv emptyTag ∧ (∀ id f, SeqInv (emptyTag.AddFrame id f)) :=
  (fun hInv => ⟨hInv, (sequences_nonempty_invariant emptyTag hInv).1⟩)
    (by intro id s hs; simp [emptyTag, mapGet] at hs)

/-! ## Claim C9 -/

/-- Claim C9: `GetTextFrame` returns the zero `TextFrame` when no frame is
stored, but the unchecked type assertion panics (`none`) on a stored
non-textual frame; hence `Title` yields the empty string for an absent
frame. -/
theorem gettextframe_behavior (t : Tag) (id : String) :
    ((t.GetLastFrame id).2 = none →
      t.GetTextFrame id = some { Encoding := 0, Text := "" }) ∧
    (∀ b, (t.GetLastFrame id).2 = some (Framer.generic b) →
      t.GetTextFrame id = none) ∧
    ((t.GetLastFrame
        ((mapGet t.ids "Title/Songname/Content description").getD "")).2 = none →
      t.Title = some "") := by
  refine ⟨?_, ?_, ?_⟩
  · intro h
    simp [Tag.GetTextFrame, h]
  · intro b h
    simp [Tag.GetTextFrame, h]
  · intro h
    simp [Tag.Title, Tag.GetTextFrame, h]

/-- Witness for C9: a non-textual frame stored under an identifier makes
`GetTextFrame` panic. -/
theorem gettextframe_behavior_witness :
    (flatPictureTag.GetLastFrame "APIC").2 = some (Framer.generic [0]) ∧
    flatPictureTag.GetTextFrame "APIC" = none :=
  ⟨by decide, (gettextframe_behavior flatPictureTag "APIC").2.1 [0] (by decide)⟩

/-! ## Claim C5 -/

/-- Claim C5: for a non-empty identifier, `formFrame` emits exactly the
identifier bytes, the size-codec bytes of the body length, two zero flag
bytes, and the body. -/
theorem formframe_layout (id : String) (f : Framer) (h : id ≠ "") :
    formFrame id f =
      some (strBytes id ++ FormSize f.Body.length ++ [0, 0] ++ f.Body) := by
  simp [formFrame, writeFrameHeader, h, List.append_assoc]

/-- Witness for C5: a concrete frame under the title identifier. -/
theorem formframe_layout_witness :
    ("TIT2" : String) ≠ "" ∧
    formFrame "TIT2" (Framer.generic [9, 8]) =
      some (strBytes "TIT2" ++ FormSize (Framer.generic [9, 8]).Body.length ++
        [0, 0] ++ (Framer.generic [9, 8]).Body) :=
  ⟨by decide, formframe_layout "TIT2" (Framer.generic [9, 8]) (by decide)⟩

/-! ## Claim C6 -/

/-- Claim C6: `formFrame` with a blank identifier panics (`none`) and
never emits bytes. -/
theorem formframe_blank_id_panics (f : Framer) : formFrame "" f = none := by
  simp [formFrame]

end Id3v2
